import Mathlib

/-!
Verification of the LinkedIn post-extraction pipeline (`linkedin_scraper.py`)
against its natural-language specification.

The development shallowly embeds the pure and DOM-query-level logic of the
scraper: strings are `List Char`, Python character classes and string methods
are translated explicitly, the regular expressions used by the source are
implemented as the deterministic matchers they denote on the given patterns
(Python `re` semantics: leftmost match, first alternative preferred, greedy
repetition), and DOM access is abstracted as per-selector query results carried
by a `Post` / `Page` structure.  Times are integer seconds; count values are
exact rationals (the script-level strategies produce fractional values by
multiplying a parsed decimal by 1000/1000000).
-/

namespace LIScraper

/-- Strings are modelled as lists of characters. -/
abbrev Str := List Char

/-- Python `str.isdigit` / regex `\d` restricted to ASCII: a decimal digit. -/
def isPyDigit (c : Char) : Bool := decide ('0' ≤ c) && decide (c ≤ '9')

/-- Python regex `\s`: the six ASCII whitespace characters. -/
def isPySpace (c : Char) : Bool :=
  c = ' ' || c = '\t' || c = '\n' || c = '\r' || c = '\x0b' || c = '\x0c'

/-- Python regex `\w` restricted to ASCII: letters, digits, underscore. -/
def isPyWord (c : Char) : Bool :=
  isPyDigit c || (decide ('a' ≤ c) && decide (c ≤ 'z'))
    || (decide ('A' ≤ c) && decide (c ≤ 'Z')) || c = '_'

/-- Python `str.lower` on one character (ASCII range). -/
def pyLowerChar (c : Char) : Char :=
  if decide ('A' ≤ c) && decide (c ≤ 'Z') then Char.ofNat (c.toNat + 32) else c

/-- Python `str.lower`. -/
def pyLower (s : Str) : Str := s.map pyLowerChar

/-- Does the first list occur as a leading segment of the second? -/
def startsList : Str → Str → Bool
  | [], _ => true
  | _ :: _, [] => false
  | p :: ps, c :: cs => p = c && startsList ps cs

/-- Python `pat in s`: contiguous-substring test. -/
def containsList (s pat : Str) : Bool :=
  startsList pat s ||
    match s with
    | [] => false
    | _ :: cs => containsList cs pat

/-- Python `str.strip()`: remove whitespace from both ends. -/
def pyStrip (s : Str) : Str :=
  ((s.dropWhile isPySpace).reverse.dropWhile isPySpace).reverse

/-- Numeric value of a decimal digit character. -/
def digitVal (c : Char) : ℕ := c.toNat - 48

/-- Value of a string of decimal digits (most significant first). -/
def natVal (s : Str) : ℕ := s.foldl (fun a c => 10 * a + digitVal c) 0

/-- An exact decimal number `n / 10 ^ d`, kept unnormalized so that all
arithmetic stays in primitive integer operations.  This represents the
(binary floating point) numbers the scraper manipulates exactly: every value
it builds is a parsed decimal numeral, possibly scaled by `1000` or
`1000000`. -/
structure Dec10 where
  n : ℤ
  d : ℕ
  deriving DecidableEq, Repr

/-- Rational value of a `Dec10`. -/
def decVal (x : Dec10) : ℚ := (x.n : ℚ) / (10 : ℚ) ^ x.d

/-- Injection of an integer count. -/
def decOfNat (k : ℕ) : Dec10 := ⟨(k : ℤ), 0⟩

/-- Multiplication by an integer constant (the `* 1000` / `* 1000000` of the
source). -/
def decScale (k : ℕ) (x : Dec10) : Dec10 := ⟨x.n * (k : ℤ), x.d⟩

/-- Value-level addition (Python `+` on numbers). -/
def decAdd (x y : Dec10) : Dec10 :=
  let m := max x.d y.d
  ⟨x.n * ((10 : ℤ) ^ (m - x.d)) + y.n * ((10 : ℤ) ^ (m - y.d)), m⟩

/-- Value-level test against zero (Python `== 0`). -/
def decIsZero (x : Dec10) : Bool := x.n = 0

/-- Python / JS truncation to an integer.  All count values the scraper
produces are non-negative, where truncation toward zero is floor. -/
def decTrunc (x : Dec10) : ℕ := x.n.toNat / 10 ^ x.d

/-- Value of a decimal-point numeral (JS `parseFloat` / Python `float` on the
well-formed numerals the scraper produces): an optional integer part,
optionally followed by a dot and a fractional part; parsing stops at the first
character that fits neither. -/
def pyFloatVal (s : Str) : Dec10 :=
  match s.dropWhile isPyDigit with
  | '.' :: t =>
      ⟨(natVal (s.takeWhile isPyDigit) * 10 ^ (t.takeWhile isPyDigit).length
          + natVal (t.takeWhile isPyDigit) : ℕ),
        (t.takeWhile isPyDigit).length⟩
  | _ => ⟨(natVal (s.takeWhile isPyDigit) : ℕ), 0⟩

/-! ### Count normalizer: `parse_count`

The source searches `text` with the pattern `(\d+,?\d*)|(\d*\.?\d+[KkMm])`.
Python `re.search` returns the leftmost match, preferring the first
alternative at each starting position.  The first alternative succeeds exactly
at positions holding a digit (greedy digits, an optional comma, greedy
digits); the second alternative can win only at a position holding a dot that
is directly followed by digits and a `K`/`k`/`M`/`m` suffix. -/

/-- The match of `(\d+,?\d*)|(\d*\.?\d+[KkMm])` anchored at the current
position, if any. -/
def countTokenAt (s : Str) : Option Str :=
  match s with
  | [] => none
  | c :: rest =>
    if isPyDigit c then
      -- first alternative `\d+,?\d*`
      let d1 := (c :: rest).takeWhile isPyDigit
      let r1 := (c :: rest).dropWhile isPyDigit
      match r1 with
      | ',' :: r2 => some (d1 ++ ',' :: r2.takeWhile isPyDigit)
      | _ => some d1
    else if c = '.' then
      -- second alternative `\d*\.?\d+[KkMm]` (leading `\d*` is empty here,
      -- otherwise the first alternative would have matched)
      match rest.takeWhile isPyDigit, rest.dropWhile isPyDigit with
      | _ :: _, k :: _ =>
          if k = 'K' || k = 'k' || k = 'M' || k = 'm' then
            some ('.' :: rest.takeWhile isPyDigit ++ [k])
          else none
      | _, _ => none
    else none

/-- Leftmost match of the count pattern (`re.search`). -/
def reSearchCount : Str → Option Str
  | [] => none
  | c :: rest =>
    match countTokenAt (c :: rest) with
    | some m => some m
    | none => reSearchCount rest

/-- Embedding of `LinkedInScraper.parse_count`. -/
def pyParseCount (text : Str) : ℕ :=
  if text = [] then 0
  else
    match reSearchCount text with
    | none => 0
    | some m =>
      let countStr := (pyStrip m).filter (fun c => !(c = ','))
      let l := pyLower countStr
      if l.contains 'k' then
        decTrunc (decScale 1000 (pyFloatVal (l.filter (fun c => !(c = 'k')))))
      else if l.contains 'm' then
        decTrunc (decScale 1000000 (pyFloatVal (l.filter (fun c => !(c = 'm')))))
      else
        decTrunc (pyFloatVal countStr)

example : pyParseCount (r"1.2K reactions").data = 1 := by decide
example : pyParseCount (r"2M").data = 2 := by decide
example : pyParseCount (r"3 comments").data = 3 := by decide
example : pyParseCount ([]) = 0 := by decide
example : pyParseCount (r".5K").data = 500 := by decide
example : pyParseCount (r"1,234 likes").data = 1234 := by decide

/-! ### Temporal normalizer: `parse_date` -/

/-- The word time units of the pattern
`(\d+)\s*(minute|hour|day|week|month|year)s?\s*ago`. -/
inductive TimeUnit
  | minute | hour | day | week | month | year
  deriving DecidableEq, Repr

/-- The unit names in the order of the regex alternation. -/
def unitName : TimeUnit → Str
  | .minute => (r"minute").data
  | .hour => (r"hour").data
  | .day => (r"day").data
  | .week => (r"week").data
  | .month => (r"month").data
  | .year => (r"year").data

/-- Seconds denoted by one word unit (`timedelta`; month as 30 days and year
as 365 days, the source's explicit approximation). -/
def unitSecs : TimeUnit → ℤ
  | .minute => 60
  | .hour => 3600
  | .day => 86400
  | .week => 604800
  | .month => 2592000
  | .year => 31536000

/-- The compact units of the pattern `(\d+)\s*(s|m|h|d|w|mo|yr)`. -/
inductive ShortUnit
  | s | m | h | d | w | mo | yr
  deriving DecidableEq, Repr

/-- The compact unit tokens in the order of the regex alternation (note that
`m` precedes `mo`, so `mo` can never be selected by the first-match
alternation). -/
def shortName : ShortUnit → Str
  | .s => (r"s").data
  | .m => (r"m").data
  | .h => (r"h").data
  | .d => (r"d").data
  | .w => (r"w").data
  | .mo => (r"mo").data
  | .yr => (r"yr").data

/-- Seconds denoted by one compact unit. -/
def shortSecs : ShortUnit → ℤ
  | .s => 1
  | .m => 60
  | .h => 3600
  | .d => 86400
  | .w => 604800
  | .mo => 2592000
  | .yr => 31536000

/-- Drop an exact leading segment. -/
def dropPre : Str → Str → Option Str
  | [], s => some s
  | _ :: _, [] => none
  | p :: ps, c :: cs => if p = c then dropPre ps cs else none

/-- First alternative of an ordered list of tokens that is a leading segment;
returns the choice and the remainder.  Faithful to ordered regex alternation
whenever (as for both unit lists of the source) no later alternative can
succeed where an earlier one already matched the same downstream. -/
def matchAlt {α : Type} : List (α × Str) → Str → Option (α × Str)
  | [], _ => none
  | (a, tok) :: more, s =>
    match dropPre tok s with
    | some r => some (a, r)
    | none => matchAlt more s

/-- The tail `\s*(minute|hour|day|week|month|year)s?\s*ago` of the relative
date pattern, applied right after the digits of the match. -/
def matchAgoTail (s : Str) : Option TimeUnit :=
  let s1 := s.dropWhile isPySpace
  match matchAlt ([TimeUnit.minute, .hour, .day, .week, .month, .year].map
      (fun u => (u, unitName u))) s1 with
  | none => none
  | some (u, r) =>
    -- greedy `s?` first, then the backtracked empty case
    match r with
    | 's' :: r2 =>
        if startsList ((r"ago").data) (r2.dropWhile isPySpace) then some u
        else if startsList ((r"ago").data) (r.dropWhile isPySpace) then some u
        else none
    | _ =>
        if startsList ((r"ago").data) (r.dropWhile isPySpace) then some u
        else none

/-- The relative date pattern anchored at the current position: a nonempty
greedy digit run, then `matchAgoTail`. -/
def matchAgoAt (l : Str) : Option (ℕ × TimeUnit) :=
  let ds := l.takeWhile isPyDigit
  if ds.isEmpty then none
  else (matchAgoTail (l.dropWhile isPyDigit)).map (fun u => (natVal ds, u))

/-- Leftmost match of `(\d+)\s*(minute|hour|day|week|month|year)s?\s*ago`. -/
def reSearchAgo : Str → Option (ℕ × TimeUnit)
  | [] => none
  | c :: rest =>
    match matchAgoAt (c :: rest) with
    | some m => some m
    | none => reSearchAgo rest

/-- The compact pattern anchored at the current position: digits, optional
whitespace, then the first compact unit token of the alternation. -/
def matchShortAt (l : Str) : Option (ℕ × ShortUnit) :=
  let ds := l.takeWhile isPyDigit
  if ds.isEmpty then none
  else
    let r := (l.dropWhile isPyDigit).dropWhile isPySpace
    match matchAlt ([ShortUnit.s, .m, .h, .d, .w, .mo, .yr].map
        (fun u => (u, shortName u))) r with
    | none => none
    | some (u, _) => some (natVal ds, u)

/-- Leftmost match of `(\d+)\s*(s|m|h|d|w|mo|yr)`. -/
def reSearchShort : Str → Option (ℕ × ShortUnit)
  | [] => none
  | c :: rest =>
    match matchShortAt (c :: rest) with
    | some m => some m
    | none => reSearchShort rest

/-! `datetime.strptime` with the two formats `"%b %d, %Y"` and `"%B %d, %Y"`:
a month name (matched case-insensitively), whitespace, a 1–2 digit day in
1..31, a comma, whitespace, a 4-digit year, and nothing else; the resulting
calendar date must exist. -/

/-- Abbreviated month names (`%b`), lowercase. -/
def monthAbbrevs : List Str :=
  [(r"jan").data, (r"feb").data, (r"mar").data, (r"apr").data, (r"may").data,
   (r"jun").data, (r"jul").data, (r"aug").data, (r"sep").data, (r"oct").data,
   (r"nov").data, (r"dec").data]

/-- Full month names (`%B`), lowercase. -/
def monthFulls : List Str :=
  [(r"january").data, (r"february").data, (r"march").data, (r"april").data,
   (r"may").data, (r"june").data, (r"july").data, (r"august").data,
   (r"september").data, (r"october").data, (r"november").data,
   (r"december").data]

/-- Drop a leading segment, comparing case-insensitively against a lowercase
pattern. -/
def dropPreCI : Str → Str → Option Str
  | [], s => some s
  | _ :: _, [] => none
  | p :: ps, c :: cs => if p = pyLowerChar c then dropPreCI ps cs else none

/-- Find the (1-based) month whose name starts the string. -/
def findMonth (names : List Str) (s : Str) : Option (ℕ × Str) :=
  (names.foldl
    (fun acc nm =>
      match acc with
      | (i, some r) => (i, some r)
      | (i, none) =>
        match dropPreCI nm s with
        | some r => (i + 1, some (i + 1, r))
        | none => (i + 1, none))
    ((0 : ℕ), (none : Option (ℕ × Str)))).2

/-- The `%d` day directive: `3[01]|[12]\d|0[1-9]|[1-9]`, two-digit forms
preferred. -/
def matchDay : Str → Option (ℕ × Str)
  | [] => none
  | c :: rest =>
    if c = '3' then
      match rest with
      | c2 :: r2 =>
          if c2 = '0' || c2 = '1' then some (30 + digitVal c2, r2)
          else some (3, rest)
      | [] => some (3, rest)
    else if c = '1' || c = '2' then
      match rest with
      | c2 :: r2 =>
          if isPyDigit c2 then some (10 * digitVal c + digitVal c2, r2)
          else some (digitVal c, rest)
      | [] => some (digitVal c, rest)
    else if c = '0' then
      match rest with
      | c2 :: r2 => if isPyDigit c2 && !(c2 = '0') then some (digitVal c2, r2) else none
      | [] => none
    else if isPyDigit c then some (digitVal c, rest)
    else none

/-- One-or-more whitespace (a literal space in a `strptime` format). -/
def matchWs1 : Str → Option Str
  | [] => none
  | c :: r => if isPySpace c then some (r.dropWhile isPySpace) else none

/-- Gregorian leap year. -/
def isLeap (y : ℕ) : Bool := (y % 4 = 0 && !(y % 100 = 0)) || y % 400 = 0

/-- Length of a month. -/
def daysInMonth (y m : ℕ) : ℕ :=
  if m = 2 then (if isLeap y then 29 else 28)
  else if m = 4 || m = 6 || m = 9 || m = 11 then 30
  else 31

/-- Days from 1970-01-01 to the civil date `y-m-d` (valid dates, `y ≥ 1`). -/
def civilToDays (y m d : ℕ) : ℤ :=
  let yy := if m ≤ 2 then y - 1 else y
  let era := yy / 400
  let yoe := yy % 400
  let mp := (m + 9) % 12
  let doy := (153 * mp + 2) / 5 + d - 1
  let doe := yoe * 365 + yoe / 4 - yoe / 100 + doy
  (era : ℤ) * 146097 + (doe : ℤ) - 719468

/-- `datetime.strptime(s, "%b %d, %Y")` (or `%B` with full month names),
yielding the date's midnight as seconds since the epoch. -/
def strptimeMD (names : List Str) (s : Str) : Option ℤ :=
  match findMonth names s with
  | none => none
  | some (m, r1) =>
    match matchWs1 r1 with
    | none => none
    | some r2 =>
      match matchDay r2 with
      | none => none
      | some (d, r3) =>
        match r3 with
        | ',' :: r4 =>
          match matchWs1 r4 with
          | none => none
          | some r5 =>
            let ys := r5.take 4
            if ys.length = 4 && ys.all isPyDigit && r5.drop 4 = [] then
              let y := natVal ys
              if 1 ≤ y && 1 ≤ d && d ≤ daysInMonth y m then
                some (86400 * civilToDays y m d)
              else none
            else none
        | _ => none

/-- Embedding of `LinkedInScraper.parse_date` (`now` is the parse-instant
current time in seconds). -/
def pyParseDate (now : ℤ) (dateText : Str) : Option ℤ :=
  if dateText = [] || dateText = (r"Unknown date").data then none
  else
    let low := pyLower dateText
    if containsList low ((r"just now").data) || low = (r"now").data then some now
    else
      match reSearchAgo low with
      | some (v, u) => some (now - (v : ℤ) * unitSecs u)
      | none =>
        match reSearchShort low with
        | some (v, u) => some (now - (v : ℤ) * shortSecs u)
        | none =>
          match strptimeMD monthAbbrevs dateText with
          | some t => some t
          | none =>
            match strptimeMD monthFulls dateText with
            | some t => some t
            | none => none

example : pyParseDate 0 ((r"1mo").data) = some (-60) := by decide
example : pyParseDate 0 ((r"2yr").data) = some (-63072000) := by decide
example : pyParseDate 0 ((r"5 minutes ago").data) = some (-300) := by decide
example : pyParseDate 0 ((r"3 month ago").data) = some (-7776000) := by decide
example : pyParseDate 100 ((r"just now").data) = some 100 := by decide
example : pyParseDate 0 ((r"garbage").data) = none := by decide
example : pyParseDate 0 ((r"Jan 2, 1970").data) = some 86400 := by decide
example : pyParseDate 0 ((r"2d").data) = some (-172800) := by decide
example : pyParseDate 0 ((r"March 1, 2020").data) = some (86400 * 18322) := by decide

/-! ### DOM abstraction

A `Post` carries, for each selector family the source queries, the texts of
the matched elements (in DOM order), together with the results of the
script-level fallbacks, which read the rendered page directly.  `crashes`
models a WebDriver exception being raised while this post is processed (the
per-post `try` of `extract_posts`). -/

structure Post where
  /-- `post.text` — the full visible text of the container. -/
  text : Str
  /-- texts for `.feed-shared-update-v2__description`. -/
  contentDesc : List Str
  /-- texts for `.feed-shared-text`. -/
  contentShared : List Str
  /-- texts for `.update-components-text`. -/
  contentComponents : List Str
  /-- texts for `.feed-shared-text-view`. -/
  contentTextView : List Str
  /-- texts for `.update-components-update-v2__commentary` (classifier only). -/
  contentCommentary : List Str
  /-- result of the script fallback of `extract_post_text`. -/
  jsText : Str
  /-- texts of the date-selector matches of `extract_post_date`, in order. -/
  dateSelTexts : List Str
  /-- result of the script fallback of `extract_post_date` (the script itself
  yields the string `Unknown date` when it finds nothing). -/
  jsDateText : Str
  /-- `textContent` of the first social-counts container, when one matches. -/
  socialContainerText : Option Str
  /-- texts of the reaction-count selector matches, in order. -/
  reactionElems : List Str
  /-- texts of the comment-count selector matches, in order. -/
  commentElems : List Str
  /-- texts of the repost-count selector matches, in order. -/
  repostElems : List Str
  /-- `textContent` of every element of the post, for the script full scan. -/
  allElementTexts : List Str
  /-- a WebDriver call raises while this post is processed. -/
  crashes : Bool
  deriving DecidableEq, Repr

/-- A rendered profile page: the containers each post-container selector
matches, plus the page-level data the extractor reads. -/
structure Page where
  /-- containers matched by `.feed-shared-update-v2`. -/
  sel1 : List Post
  /-- containers matched by `.occludable-update`. -/
  sel2 : List Post
  /-- containers matched by `.profile-creator-shared-feed-update__container`. -/
  sel3 : List Post
  /-- trimmed text of the profile-name heading, when the script finds one. -/
  profileNameJs : Option Str
  /-- `driver.current_url`. -/
  currentUrl : Str
  deriving DecidableEq, Repr

/-- Run-level context: the parse-instant clock, the `max_posts` limit and the
session identifier fixed at scraper construction (`max_posts` defaults to 5). -/
structure Ctx where
  now : ℤ
  maxPosts : ℕ
  sessionId : Str
  deriving DecidableEq, Repr

/-! ### Post classifier: `is_original_post` -/

/-- The fixed activity-indicator phrases. -/
def activityTexts : List Str :=
  [(r"liked").data, (r"commented on").data, (r"replied").data,
   (r"reposted").data, (r"shared").data, (r"celebrates").data,
   (r"mentioned in").data, (r"follows").data]

/-- Does the lowercased container text start with an activity phrase, or
contain a newline followed by one within its first 50 characters? -/
def hasActivityIndicator (p : Post) : Bool :=
  let t := pyLower p.text
  activityTexts.any (fun a => startsList a t || containsList (t.take 50) ('\n' :: a))

/-- Does some content selector yield an element with non-empty stripped
text? -/
def hasContentIndicator (p : Post) : Bool :=
  [p.contentDesc, p.contentShared, p.contentComponents, p.contentTextView,
   p.contentCommentary].any
    (fun elems => !elems.isEmpty && elems.any (fun e => !(pyStrip e).isEmpty))

/-- Embedding of `LinkedInScraper.is_original_post`. -/
def isOriginalPost (p : Post) : Bool :=
  !hasActivityIndicator p && hasContentIndicator p

/-! ### Field extractor: text and date -/

/-- Embedding of the text pass of `extract_post_text`: over the four content
selectors, keep the longest non-empty stripped text (first seen wins ties). -/
def bestContentText (p : Post) : Str :=
  [p.contentDesc, p.contentShared, p.contentComponents, p.contentTextView].foldl
    (fun cur elems =>
      elems.foldl
        (fun cur e =>
          let t := pyStrip e
          if !t.isEmpty && cur.length < t.length then t else cur)
        cur)
    []

/-- Index of the last newline of a string, if any. -/
def lastIdxNl : Str → Option ℕ
  | [] => none
  | c :: r =>
    match lastIdxNl r with
    | some k => some (k + 1)
    | none => if c = '\n' then some 0 else none

/-- `re.sub(r'\n\s*\n', '\n\n', ...)`: each newline followed by a whitespace
run that still contains a newline collapses to a blank line (the greedy match
extends through the last newline of the run).  The fuel argument — the input
length at the top-level call — only makes the recursion structural; each step
consumes at least one character, so it never runs out. -/
def pySubBlankGo : ℕ → Str → Str
  | _, [] => []
  | 0, s => s
  | f + 1, c :: rest =>
    if c = '\n' then
      match lastIdxNl (rest.takeWhile isPySpace) with
      | some k => '\n' :: '\n' :: pySubBlankGo f (rest.drop (k + 1))
      | none => c :: pySubBlankGo f rest
    else c :: pySubBlankGo f rest

/-- `re.sub(r'\n\s*\n', '\n\n', ...)`. -/
def pySubBlank (s : Str) : Str := pySubBlankGo s.length s

/-- `re.sub(r' +', ' ', ...)`: collapse runs of spaces.  The flag records
whether the previous character was a space already emitted. -/
def pySubSpacesGo : Bool → Str → Str
  | _, [] => []
  | inRun, c :: rest =>
    if c = ' ' then
      (if inRun then [] else [' ']) ++ pySubSpacesGo true rest
    else c :: pySubSpacesGo false rest

/-- `re.sub(r' +', ' ', ...)`. -/
def pySubSpaces (s : Str) : Str := pySubSpacesGo false s

/-- Embedding of `LinkedInScraper.extract_post_text`. -/
def extractPostText (p : Post) : Str :=
  let best := bestContentText p
  let txt := if best.isEmpty then p.jsText else best
  pyStrip (pySubSpaces (pySubBlank txt))

/-- The time-unit indicator fragments accepted by `extract_post_date`. -/
def dateIndicators : List Str :=
  [(r"ago").data, (r"hour").data, (r"day").data, (r"min").data, (r"sec").data,
   (r"just now").data, (r"week").data, (r"month").data, (r"yr").data]

/-- First date-selector text that is non-empty after stripping and contains a
time-unit indicator. -/
def firstDateText : List Str → Option Str
  | [] => none
  | e :: es =>
    let t := pyStrip e
    if !t.isEmpty && dateIndicators.any (fun ind => containsList (pyLower t) ind)
    then some t
    else firstDateText es

/-- Embedding of `LinkedInScraper.extract_post_date`. -/
def extractPostDate (p : Post) : Str :=
  match firstDateText p.dateSelTexts with
  | some t => t
  | none => p.jsDateText

/-! ### Engagement extraction: `extract_engagement`

Three strategies in order; a later one runs only while all three counts are
still zero.  The script-level strategies (1 and 3) use the pattern
`\d+[\d,.km]*\s*(?:kw₁|kw₂)` and convert via `parseFloat`/`parseInt`. -/

/-- The character class `[\d,.km]` of the script patterns. -/
def isJsClassChar (c : Char) : Bool :=
  isPyDigit c || c = ',' || c = '.' || c = 'k' || c = 'm'

/-- The characters kept by `replace(/[^\d.km]/gi, '')`. -/
def isJsNumChar (c : Char) : Bool :=
  isPyDigit c || c = '.' || c = 'k' || c = 'm'

/-- The script pattern anchored at the current position; returns the first
capture group and the whole match. -/
def jsMatchAt (kws : List Str) (s : Str) : Option (Str × Str) :=
  match s with
  | [] => none
  | c :: _ =>
    if isPyDigit c then
      let g1 := s.takeWhile isJsClassChar
      let r := s.dropWhile isJsClassChar
      let ws := r.takeWhile isPySpace
      let r2 := r.dropWhile isPySpace
      match kws.find? (fun kw => startsList kw r2) with
      | some kw => some (g1, g1 ++ ws ++ kw)
      | none => none
    else none

/-- Leftmost match of the script pattern. -/
def reSearchJs (kws : List Str) : Str → Option (Str × Str)
  | [] => none
  | c :: rest =>
    match jsMatchAt kws (c :: rest) with
    | some m => some m
    | none => reSearchJs kws rest

/-- The script number conversion: a `k` in the kept characters multiplies the
`parseFloat` prefix by 1000, an `m` by 1000000, otherwise `parseInt`. -/
def jsNumValue (numStr : Str) : Dec10 :=
  if numStr.contains 'k' then decScale 1000 (pyFloatVal numStr)
  else if numStr.contains 'm' then decScale 1000000 (pyFloatVal numStr)
  else ⟨(natVal (numStr.takeWhile isPyDigit) : ℕ), 0⟩

/-- Strategy 1, per category: search the lowercased social-container text and
convert the first capture group. -/
def jsStrat1 (kws : List Str) (t : Str) : Dec10 :=
  match reSearchJs kws t with
  | some (g1, _) => jsNumValue (g1.filter isJsNumChar)
  | none => ⟨0, 0⟩

/-- Strategy 2 acceptance test for reaction elements. -/
def reactionCond (t : Str) : Bool :=
  containsList (pyLower t) ((r"like").data)
    || containsList (pyLower t) ((r"reaction").data)
    || (!t.isEmpty && t.all isPyDigit)
    || containsList (pyLower t) ((r"k").data)

/-- Strategy 2 acceptance test for comment elements. -/
def commentCond (t : Str) : Bool :=
  containsList (pyLower t) ((r"comment").data)
    || (!t.isEmpty && t.all isPyDigit)
    || containsList (pyLower t) ((r"k").data)

/-- Strategy 2 acceptance test for repost elements. -/
def repostCond (t : Str) : Bool :=
  containsList (pyLower t) ((r"repost").data)
    || containsList (pyLower t) ((r"share").data)
    || (!t.isEmpty && t.all isPyDigit)
    || containsList (pyLower t) ((r"k").data)

/-- Strategy 2, per category: over the dedicated selector matches, keep the
maximum `parse_count` of the accepted texts. -/
def strat2Fold (cond : Str → Bool) (elems : List Str) : ℕ :=
  elems.foldl
    (fun cur e =>
      let t := pyStrip e
      if !t.isEmpty && cond t then
        (if cur < pyParseCount t then pyParseCount t else cur)
      else cur)
    0

/-- Strategy 3, per category and element: when the element text mentions a
keyword and the pattern matches, the kept characters of the whole match
(keyword letters included) are converted, overwriting the current value. -/
def strat3Step (kws : List Str) (t : Str) (cur : Dec10) : Dec10 :=
  if kws.any (fun kw => containsList t kw) then
    match reSearchJs kws t with
    | some (_, m0) => jsNumValue (m0.filter isJsNumChar)
    | none => cur
  else cur

/-- Keyword families of the three categories. -/
def likeKws : List Str := [(r"like").data, (r"reaction").data]

/-- Keywords for the comment category. -/
def commentKws : List Str := [(r"comment").data]

/-- Keywords for the repost category. -/
def repostKws : List Str := [(r"repost").data, (r"share").data]

/-- Strategy 1 of `extract_engagement`: parse the three categories out of the
lowercased aggregate social-counts text, when a container matched. -/
def engStrat1 (p : Post) : Dec10 × Dec10 × Dec10 :=
  match p.socialContainerText with
  | some ct =>
    (jsStrat1 likeKws (pyLower ct), jsStrat1 commentKws (pyLower ct),
     jsStrat1 repostKws (pyLower ct))
  | none => (⟨0, 0⟩, ⟨0, 0⟩, ⟨0, 0⟩)

/-- Strategy 3 of `extract_engagement`: the script full scan over every
element text, each category's last match overwriting its value. -/
def engStrat3 (p : Post) : Dec10 × Dec10 × Dec10 :=
  p.allElementTexts.foldl
    (fun acc e =>
      (strat3Step likeKws (pyLower (pyStrip e)) acc.1,
       strat3Step commentKws (pyLower (pyStrip e)) acc.2.1,
       strat3Step repostKws (pyLower (pyStrip e)) acc.2.2))
    (⟨0, 0⟩, ⟨0, 0⟩, ⟨0, 0⟩)

/-- Embedding of `LinkedInScraper.extract_engagement`. -/
def extractEngagement (p : Post) : Dec10 × Dec10 × Dec10 :=
  if decIsZero (engStrat1 p).1 && decIsZero (engStrat1 p).2.1
      && decIsZero (engStrat1 p).2.2 then
    if strat2Fold reactionCond p.reactionElems = 0
        && strat2Fold commentCond p.commentElems = 0
        && strat2Fold repostCond p.repostElems = 0 then
      engStrat3 p
    else
      (decOfNat (strat2Fold reactionCond p.reactionElems),
       decOfNat (strat2Fold commentCond p.commentElems),
       decOfNat (strat2Fold repostCond p.repostElems))
  else engStrat1 p

/-! ### Hashtags, profile name, URL and timestamp formatting -/

/-- `re.findall(r'#\w+', text)`: non-overlapping matches, left to right.
The fuel argument — the input length at the top-level call — only makes the
recursion structural; each step consumes at least one character. -/
def pyFindallGo : ℕ → Str → List Str
  | _, [] => []
  | 0, _ => []
  | f + 1, c :: rest =>
    if c = '#' then
      if (rest.takeWhile isPyWord).isEmpty then pyFindallGo f rest
      else
        ('#' :: rest.takeWhile isPyWord)
          :: pyFindallGo f (rest.drop (rest.takeWhile isPyWord).length)
    else pyFindallGo f rest

/-- `re.findall(r'#\w+', text)`. -/
def pyFindall (s : Str) : List Str := pyFindallGo s.length s

/-- Python `', '.join(...)`. -/
def joinCS : List Str → Str
  | [] => []
  | [x] => x
  | x :: xs => x ++ ',' :: ' ' :: joinCS xs

/-- ASCII letter test (Python `str.title` word boundaries). -/
def isAsciiAlpha (c : Char) : Bool :=
  (decide ('a' ≤ c) && decide (c ≤ 'z')) || (decide ('A' ≤ c) && decide (c ≤ 'Z'))

/-- Python `str.upper` on one character (ASCII range). -/
def pyUpperChar (c : Char) : Char :=
  if decide ('a' ≤ c) && decide (c ≤ 'z') then Char.ofNat (c.toNat - 32) else c

/-- Python `str.title` (ASCII): uppercase a letter at a word start, lowercase
the rest. -/
def pyTitleGo : Bool → Str → Str
  | _, [] => []
  | prevAlpha, c :: r =>
    if isAsciiAlpha c then
      (if prevAlpha then pyLowerChar c else pyUpperChar c) :: pyTitleGo true r
    else c :: pyTitleGo false r

/-- Remainder after the first occurrence of a pattern, if present
(`s.split(pat)[1]` up to the following split point). -/
def strAfterSub : Str → Str → Option Str
  | s, pat =>
    if startsList pat s then some (s.drop pat.length)
    else
      match s with
      | [] => none
      | _ :: cs => strAfterSub cs pat

/-- Leading segment before the first occurrence of a pattern
(`s.split(pat)[0]`; the whole string when the pattern is absent). -/
def strBeforeSub : Str → Str → Str
  | s, pat =>
    if startsList pat s then []
    else
      match s with
      | [] => []
      | c :: cs => c :: strBeforeSub cs pat

/-- Embedding of `LinkedInScraper.extract_profile_name`. -/
def extractProfileName (page : Page) : Str :=
  match page.profileNameJs with
  | some n => n
  | none =>
    match strAfterSub page.currentUrl ((r"/in/").data) with
    | some rest =>
      pyTitleGo false
        ((rest.takeWhile (fun c => !(c = '/'))).map
          (fun c => if c = '-' then ' ' else c))
    | none => (r"Unknown Profile").data

/-- Decimal digit character. -/
def digChar (k : ℕ) : Char := Char.ofNat (48 + k)

/-- Decimal numeral of a natural number; the fuel argument — the number
itself at the top-level call — only makes the recursion structural and is
never exhausted. -/
def natDigitsGo : ℕ → ℕ → Str
  | 0, n => [digChar n]
  | f + 1, n =>
    if n < 10 then [digChar n]
    else natDigitsGo f (n / 10) ++ [digChar (n % 10)]

/-- Decimal numeral of a natural number. -/
def natDigits (n : ℕ) : Str := natDigitsGo n n

/-- Zero-padded two-digit numeral. -/
def pad2 (n : ℕ) : Str := if n < 10 then '0' :: natDigits n else natDigits n

/-- Zero-padded four-digit numeral (`%Y`). -/
def pad4 (n : ℕ) : Str :=
  if n < 10 then '0' :: '0' :: '0' :: natDigits n
  else if n < 100 then '0' :: '0' :: natDigits n
  else if n < 1000 then '0' :: natDigits n
  else natDigits n

/-- Civil date of a day number (inverse of `civilToDays`). -/
def civilFromDays (z : ℤ) : ℕ × ℕ × ℕ :=
  let z2 := z + 719468
  let era := Int.fdiv z2 146097
  let doe := (Int.emod z2 146097).toNat
  let yoe := (doe - doe / 1460 + doe / 36524 - doe / 146096) / 365
  let doy := doe - (365 * yoe + yoe / 4 - yoe / 100)
  let mp := (5 * doy + 2) / 153
  let d := doy - (153 * mp + 2) / 5 + 1
  let m := if mp < 10 then mp + 3 else mp - 9
  (((yoe : ℤ) + era * 400 + (if m ≤ 2 then 1 else 0)).toNat, m, d)

/-- `strftime('%Y-%m-%d %H:%M:%S')` on an epoch-second timestamp. -/
def fmtTimestamp (t : ℤ) : Str :=
  let sod := (Int.emod t 86400).toNat
  let c := civilFromDays (Int.fdiv t 86400)
  pad4 c.1 ++ '-' :: pad2 c.2.1 ++ '-' :: pad2 c.2.2
    ++ ' ' :: pad2 (sod / 3600) ++ ':' :: pad2 (sod / 60 % 60)
    ++ ':' :: pad2 (sod % 60)

/-- `strftime('%A')`: weekday name (1970-01-01 was a Thursday). -/
def dayOfWeekName (t : ℤ) : Str :=
  [(r"Monday").data, (r"Tuesday").data, (r"Wednesday").data,
   (r"Thursday").data, (r"Friday").data, (r"Saturday").data,
   (r"Sunday").data].getD (Int.emod (Int.fdiv t 86400 + 3) 7).toNat []

/-- `strftime('%H')`: zero-padded hour of day. -/
def hourOfDayStr (t : ℤ) : Str := pad2 ((Int.emod t 86400).toNat / 3600)

/-! ### Record assembly and the extraction loop -/

/-- The durable output record, with the columns of the persisted dataset. -/
structure PostRecord where
  profile_name : Str
  profile_url : Str
  post_text : Str
  post_date_text : Str
  post_date : Str
  day_of_week : Str
  hour_of_day : Str
  reactions : Dec10
  comments : Dec10
  reposts : Dec10
  total_engagement : Dec10
  hashtags : Str
  hashtag_count : ℕ
  post_length : ℕ
  scraped_at : Str
  session_id : Str
  deriving DecidableEq, Repr

/-- The record `extract_posts` assembles for one original post. -/
def buildRecord (ctx : Ctx) (page : Page) (p : Post) : PostRecord :=
  let postText := extractPostText p
  let postDate := extractPostDate p
  let e := extractEngagement p
  let parsed := pyParseDate ctx.now postDate
  let hs := pyFindall postText
  { profile_name := extractProfileName page
    profile_url := strBeforeSub page.currentUrl ((r"/recent-activity").data)
    post_text := postText
    post_date_text := postDate
    post_date :=
      match parsed with
      | some t => fmtTimestamp t
      | none => (r"Unknown").data
    day_of_week :=
      match parsed with
      | some t => dayOfWeekName t
      | none => (r"Unknown").data
    hour_of_day :=
      match parsed with
      | some t => hourOfDayStr t
      | none => (r"Unknown").data
    reactions := e.1
    comments := e.2.1
    reposts := e.2.2
    total_engagement := decAdd (decAdd e.1 e.2.1) e.2.2
    hashtags := joinCS hs
    hashtag_count := hs.length
    post_length := postText.length
    scraped_at := fmtTimestamp ctx.now
    session_id := ctx.sessionId }

/-- The post locator: try the three container selectors in order, take the
first 15 matches of the first selector that matches at all. -/
def locatePosts (page : Page) : List Post :=
  if !page.sel1.isEmpty then page.sel1.take 15
  else if !page.sel2.isEmpty then page.sel2.take 15
  else if !page.sel3.isEmpty then page.sel3.take 15
  else []

/-- The per-post loop of `extract_posts`: a raised exception or a non-original
classification skips the post; after appending a record the loop stops once
the count reaches `max_posts`. -/
def extractLoop (ctx : Ctx) (page : Page) : ℕ → List Post → List PostRecord
  | _, [] => []
  | count, p :: ps =>
    if p.crashes then extractLoop ctx page count ps
    else if !isOriginalPost p then extractLoop ctx page count ps
    else
      let rcd := buildRecord ctx page p
      if ctx.maxPosts ≤ count + 1 then [rcd]
      else rcd :: extractLoop ctx page (count + 1) ps

/-- Embedding of `LinkedInScraper.extract_posts`. -/
def extractPosts (ctx : Ctx) (page : Page) : List PostRecord :=
  extractLoop ctx page 0 (locatePosts page)

/-- The same loop without the `max_posts` cutoff: every extractable original
post in order. -/
def extractAllLoop (ctx : Ctx) (page : Page) : List Post → List PostRecord
  | [] => []
  | p :: ps =>
    if p.crashes then extractAllLoop ctx page ps
    else if !isOriginalPost p then extractAllLoop ctx page ps
    else buildRecord ctx page p :: extractAllLoop ctx page ps

/-! ### Multi-profile run and the dataset writer -/

/-- What one profile contributes: either `scrape_profile` fails (navigation
failure or a raised exception — zero records) or it yields a rendered page. -/
inductive ProfileOutcome
  | failed
  | ok (page : Page)
  deriving DecidableEq, Repr

/-- Records of one profile (`scrape_profile`). -/
def scrapeProfileRecords (ctx : Ctx) : ProfileOutcome → List PostRecord
  | .failed => []
  | .ok page => extractPosts ctx page

/-- All records of the run, profiles processed strictly in order, each
contributing independently. -/
def sessionRecords (ctx : Ctx) (profiles : List ProfileOutcome) : List PostRecord :=
  (profiles.map (scrapeProfileRecords ctx)).flatten

/-- The deduplication key (`subset=['post_text', 'profile_name']`). -/
def recKey (rcd : PostRecord) : Str × Str := (rcd.post_text, rcd.profile_name)

/-- `drop_duplicates(..., keep='first')`: keep each row whose key has not been
seen earlier. -/
def dedupByKey : List PostRecord → List (Str × Str) → List PostRecord
  | [], _ => []
  | rcd :: rs, seen =>
    if seen.contains (recKey rcd) then dedupByKey rs seen
    else rcd :: dedupByKey rs (recKey rcd :: seen)

/-- The cumulative merge: concatenate the existing file with the new session
records, then drop duplicate keys keeping the first occurrence. -/
def mergeCumulative (existing new : List PostRecord) : List PostRecord :=
  dedupByKey (existing ++ new) []

/-- First record carrying a given key (how a dataset row is looked up). -/
def findKey (k : Str × Str) (l : List PostRecord) : Option PostRecord :=
  l.find? (fun rcd => recKey rcd = k)

/-- The seen-key accumulator after `dedupByKey` has processed a list. -/
def seenAfter : List PostRecord → List (Str × Str) → List (Str × Str)
  | [], seen => seen
  | rcd :: rs, seen =>
    if seen.contains (recKey rcd) then seenAfter rs seen
    else seenAfter rs (recKey rcd :: seen)

/-- Embedding of the tail of `scrape_multiple_profiles`: the pair (session
dataframe, cumulative dataframe) it returns; `cumulative` is the content of
the cumulative file when it exists. -/
def scrapeMultipleProfiles (ctx : Ctx) (cumulative : Option (List PostRecord))
    (profiles : List ProfileOutcome) : List PostRecord × List PostRecord :=
  let new := sessionRecords ctx profiles
  if new.isEmpty then ([], [])
  else
    match cumulative with
    | some existing => (new, mergeCumulative existing new)
    | none => (new, new)

/-! ### Concrete sample inputs used by witnesses and counterexamples -/

/-- A container with the given visible text and content-selector text, no
engagement markup beyond `social`, and the given date-selector texts. -/
def basicPost (txt : Str) (social : Option Str) (dateTexts : List Str) : Post :=
  { text := txt
    contentDesc := [txt]
    contentShared := []
    contentComponents := []
    contentTextView := []
    contentCommentary := []
    jsText := []
    dateSelTexts := dateTexts
    jsDateText := (r"Unknown date").data
    socialContainerText := social
    reactionElems := []
    commentElems := []
    repostElems := []
    allElementTexts := []
    crashes := false }

/-- A page whose first container selector matches the given posts. -/
def basicPage (posts : List Post) : Page :=
  { sel1 := posts
    sel2 := []
    sel3 := []
    profileNameJs := some ((r"Test User").data)
    currentUrl := (r"https://www.linkedin.com/in/test-user/recent-activity/all/").data }

/-- A context with clock zero and the given `max_posts`. -/
def mkCtx (mp : ℕ) : Ctx :=
  { now := 0, maxPosts := mp, sessionId := (r"abc12345").data }

/-- A dataset row with the given dedup-key fields and reaction count. -/
def mkRec (nm txt : Str) (rx : ℤ) : PostRecord :=
  { profile_name := nm
    profile_url := []
    post_text := txt
    post_date_text := []
    post_date := []
    day_of_week := []
    hour_of_day := []
    reactions := ⟨rx, 0⟩
    comments := ⟨0, 0⟩
    reposts := ⟨0, 0⟩
    total_engagement := ⟨rx, 0⟩
    hashtags := []
    hashtag_count := 0
    post_length := 0
    scraped_at := []
    session_id := [] }

/-- An original post whose date text parses to nothing. -/
def c3post : Post :=
  basicPost ((r"A real post").data) none [(r"gibberish ago maybe").data]

/-- An existing cumulative dataset with one row. -/
def c5e : List PostRecord := [mkRec ((r"alice").data) ((r"hello").data) 1]

/-- A session dataset with a key collision against `c5e` and a fresh row. -/
def c5n : List PostRecord :=
  [mkRec ((r"alice").data) ((r"hello").data) 2,
   mkRec ((r"bob").data) ((r"hola").data) 3]

/-- A post whose aggregate social-counts text carries a fractional-K count. -/
def c4post : Post :=
  basicPost ((r"Some post text").data) (some ((r"1.2345K reactions").data)) []

/-- Page for the engagement-invariant claim. -/
def c4page : Page := basicPage [c4post]

/-- A container that is a reaction, not an original post. -/
def c6liked : Post := basicPost ((r"liked a post about testing").data) none []

/-- An original container. -/
def c6orig : Post := basicPost ((r"An original insight").data) none []

/-- An ambiguous container: no activity phrase and no content-selector text. -/
def c6ambiguous : Post :=
  { basicPost ((r"mystery").data) none [] with contentDesc := [] }

/-- A post whose text repeats one hashtag. -/
def c7post : Post := basicPost ((r"Hi #x and #x").data) none []

/-- Page for the hashtag claim. -/
def c7page : Page := basicPage [c7post]

/-- Container used by the locator witness. -/
def c8post : Post := basicPost ((r"Post body").data) none []

/-- A page where only the second container selector matches. -/
def c8pageB : Page := { basicPage [] with sel2 := [c8post] }

/-- An extractable post for the error-containment claim. -/
def c9post : Post := basicPost ((r"Niner post").data) none []

/-- A post whose processing raises a WebDriver exception. -/
def c9crashPost : Post :=
  { basicPost ((r"Crashing post").data) none [] with crashes := true }

/-- Page for the error-containment claim. -/
def c9page : Page := basicPage [c9post]

/-- A page that renders but exposes no posts at all. -/
def c9emptyPage : Page := basicPage []

/-- Page with one original post, for the `max_posts` claim. -/
def c10page : Page := basicPage [basicPost ((r"Tenth post").data) none []]

/-! ## Helper lemmas -/

theorem takeWhile_append_of {p : Char → Bool} {l r : Str} {b : Char}
    (hl : ∀ a ∈ l, p a = true) (hb : p b = false) :
    (l ++ b :: r).takeWhile p = l := by
  induction l with
  | nil => simp [List.takeWhile_cons, hb]
  | cons a t ih =>
    have ha := hl a (by simp)
    simp only [List.cons_append, List.takeWhile_cons, ha, if_true]
    exact congrArg (a :: ·) (ih fun x hx => hl x (by simp [hx]))

theorem dropWhile_append_of {p : Char → Bool} {l r : Str} {b : Char}
    (hl : ∀ a ∈ l, p a = true) (hb : p b = false) :
    (l ++ b :: r).dropWhile p = b :: r := by
  induction l with
  | nil => simp [List.dropWhile_cons, hb]
  | cons a t ih =>
    have ha := hl a (by simp)
    simp only [List.cons_append, List.dropWhile_cons, ha, if_true]
    exact ih fun x hx => hl x (by simp [hx])

theorem mem_of_containsList {s : Str} {c : Char} {cs : Str}
    (h : containsList s (c :: cs) = true) : c ∈ s := by
  induction s with
  | nil => simp [containsList, startsList] at h
  | cons x xs ih =>
    rw [containsList] at h
    rcases Bool.or_eq_true_iff.mp h with h1 | h2
    · rw [startsList] at h1
      rcases Bool.and_eq_true_iff.mp h1 with ⟨he, _⟩
      simp at he
      simp [he]
    · exact List.mem_cons_of_mem _ (ih h2)

/-! Facts about decimal numerals. -/

theorem natDigitsGo_irrel :
    ∀ (n f g : ℕ), n ≤ f → n ≤ g → natDigitsGo f n = natDigitsGo g n := by
  intro n
  induction n using Nat.strong_induction_on with
  | _ n ih =>
    intro f g hf hg
    by_cases hn : n < 10
    · cases f <;> cases g <;> simp [natDigitsGo, hn]
    · cases f with
      | zero => omega
      | succ f1 =>
        cases g with
        | zero => omega
        | succ g1 =>
          simp only [natDigitsGo, hn, if_false]
          have hd : n / 10 < n := Nat.div_lt_self (by omega) (by omega)
          rw [ih (n / 10) hd f1 g1 (by omega) (by omega)]

theorem natDigits_eq (n : ℕ) :
    natDigits n
      = if n < 10 then [digChar n]
        else natDigits (n / 10) ++ [digChar (n % 10)] := by
  unfold natDigits
  by_cases hn : n < 10
  · cases n <;> simp [natDigitsGo, hn]
  · cases n with
    | zero => omega
    | succ m =>
      simp only [natDigitsGo, hn, if_false]
      have hd : (m + 1) / 10 < m + 1 := Nat.div_lt_self (by omega) (by omega)
      rw [natDigitsGo_irrel ((m + 1) / 10) m ((m + 1) / 10) (by omega) (by omega)]

theorem natDigits_forall (P : Char → Prop) (h : ∀ k, k < 10 → P (digChar k)) :
    ∀ n, ∀ c ∈ natDigits n, P c := by
  intro n
  induction n using Nat.strong_induction_on with
  | _ n ih =>
    intro c hc
    rw [natDigits_eq] at hc
    by_cases hn : n < 10
    · simp [hn] at hc
      exact hc ▸ h n hn
    · simp [hn] at hc
      rcases hc with hc | hc
      · exact ih (n / 10) (Nat.div_lt_self (by omega) (by omega)) c hc
      · exact hc ▸ h (n % 10) (Nat.mod_lt n (by omega))

theorem natDigits_all_digit (n : ℕ) : ∀ c ∈ natDigits n, isPyDigit c = true := by
  refine natDigits_forall _ (fun k hk => ?_) n
  interval_cases k <;> decide

theorem natDigits_ne_nil (n : ℕ) : natDigits n ≠ [] := by
  rw [natDigits_eq]
  by_cases hn : n < 10 <;> simp [hn]

theorem natDigits_head (n : ℕ) :
    ∃ k t, k < 10 ∧ natDigits n = digChar k :: t := by
  induction n using Nat.strong_induction_on with
  | _ n ih =>
    rw [natDigits_eq]
    by_cases hn : n < 10
    · exact ⟨n, [], hn, by simp [hn]⟩
    · obtain ⟨k, t, hk, ht⟩ := ih (n / 10) (Nat.div_lt_self (by omega) (by omega))
      exact ⟨k, t ++ [digChar (n % 10)], hk, by simp [hn, ht]⟩

theorem natVal_append_digit (l : Str) (c : Char) :
    natVal (l ++ [c]) = 10 * natVal l + digitVal c := by
  simp [natVal, List.foldl_append]

theorem digitVal_digChar {k : ℕ} (hk : k < 10) : digitVal (digChar k) = k := by
  interval_cases k <;> decide

theorem natVal_natDigits (n : ℕ) : natVal (natDigits n) = n := by
  induction n using Nat.strong_induction_on with
  | _ n ih =>
    rw [natDigits_eq]
    by_cases hn : n < 10
    · simp only [hn, if_true]
      show natVal ([] ++ [digChar n]) = n
      rw [natVal_append_digit, digitVal_digChar hn]
      simp [natVal]
    · simp only [hn, if_false]
      rw [natVal_append_digit, ih (n / 10) (Nat.div_lt_self (by omega) (by omega)),
        digitVal_digChar (Nat.mod_lt n (by omega))]
      omega

theorem pyLower_natDigits (n : ℕ) : pyLower (natDigits n) = natDigits n := by
  have h : ∀ c ∈ natDigits n, pyLowerChar c = c := by
    refine natDigits_forall _ (fun k hk => ?_) n
    interval_cases k <;> decide
  unfold pyLower
  calc (natDigits n).map pyLowerChar = (natDigits n).map id :=
        List.map_congr_left fun c hc => h c hc
    _ = natDigits n := List.map_id _

theorem natDigits_no_j (n : ℕ) : ∀ c ∈ natDigits n, c ≠ 'j' := by
  refine natDigits_forall _ (fun k hk => ?_) n
  interval_cases k <;> decide

/-! ## C1 — count normalizer examples -/

/-- C1: the spec's examples for `parse_count` do not all hold on the code.
`parse_count("3 comments") = 3` and `parse_count("") = 0` hold, but the
regex `(\d+,?\d*)|(\d*\.?\d+[KkMm])` prefers its first alternative at the
leftmost digit, so `"1.2K reactions"` matches `"1"` and `"2M"` matches
`"2"`: the function returns 1 and 2 instead of the specified 1200 and
2000000 — the k/K and m/M multiplier branches are reachable only for tokens
that begin with a decimal point (e.g. `".5K"`). -/
theorem c1_parse_count_examples :
    pyParseCount ((r"1.2K reactions").data) = 1 ∧
    pyParseCount ((r"1.2K reactions").data) ≠ 1200 ∧
    pyParseCount ((r"2M").data) = 2 ∧
    pyParseCount ((r"2M").data) ≠ 2000000 ∧
    pyParseCount ((r"3 comments").data) = 3 ∧
    pyParseCount ([]) = 0 ∧
    pyParseCount ((r".5K").data) = 500 := by
  decide

/-! ## C2 — compact relative dates -/

/-- C2: the compact form `<N>mo` is not parsed as months.  In the pattern
`(\d+)\s*(s|m|h|d|w|mo|yr)` the alternative `m` precedes `mo`, and regex
alternation takes the first match, so `"1mo"` yields unit `m` (minutes):
`parse_date` returns `now - 60` seconds instead of the specified
`now - 30` days (2592000 seconds).  The other compact units behave as
specified, e.g. `"2d"` and `"2yr"`. -/
theorem c2_parse_date_compact_mo :
    pyParseDate 0 ((r"1mo").data) = some (-60) ∧
    pyParseDate 0 ((r"1mo").data) ≠ some (-2592000) ∧
    pyParseDate 0 ((r"2d").data) = some (-172800) ∧
    pyParseDate 0 ((r"2yr").data) = some (-63072000) ∧
    pyParseDate 0 ((r"45s").data) = some (-45) ∧
    pyParseDate 0 ((r"3w").data) = some (-1814400) := by
  decide

/-! ## C3 — temporal normalizer -/

theorem matchAgoAt_append (n : ℕ) (b : Char) (t2 : Str) (hb : isPyDigit b = false) :
    matchAgoAt (natDigits n ++ (b :: t2)) =
      (matchAgoTail (b :: t2)).map (fun u => (n, u)) := by
  unfold matchAgoAt
  rw [takeWhile_append_of (natDigits_all_digit n) hb,
    dropWhile_append_of (natDigits_all_digit n) hb]
  have hne : (natDigits n).isEmpty = false := by
    cases h : natDigits n with
    | nil => exact absurd h (natDigits_ne_nil n)
    | cons a t => simp [List.isEmpty]
  simp [hne, natVal_natDigits]

theorem reSearchAgo_append {u : TimeUnit} (n : ℕ) (b : Char) (t2 : Str)
    (hb : isPyDigit b = false) (hu : matchAgoTail (b :: t2) = some u) :
    reSearchAgo (natDigits n ++ (b :: t2)) = some (n, u) := by
  obtain ⟨k, t, hk, ht⟩ := natDigits_head n
  have hm : matchAgoAt (natDigits n ++ (b :: t2)) = some (n, u) := by
    rw [matchAgoAt_append n b t2 hb, hu]; rfl
  rw [ht] at hm ⊢
  rw [List.cons_append] at hm ⊢
  rw [reSearchAgo, hm]

theorem pyParseDate_digits_tail (now : ℤ) (n : ℕ) (u : TimeUnit) (b : Char)
    (t2 : Str) (hb : isPyDigit b = false)
    (hlow : pyLower (b :: t2) = b :: t2)
    (hu : matchAgoTail (b :: t2) = some u)
    (hnoj : 'j' ∉ b :: t2) :
    pyParseDate now (natDigits n ++ (b :: t2)) = some (now - (n : ℤ) * unitSecs u) := by
  obtain ⟨k, t, hk, ht⟩ := natDigits_head n
  have hkd : isPyDigit (digChar k) = true :=
    natDigits_all_digit n (digChar k) (ht ▸ List.mem_cons_self _ _)
  have hs : natDigits n ++ (b :: t2) = digChar k :: (t ++ (b :: t2)) := by
    rw [ht]; rfl
  have hne : ¬ (natDigits n ++ (b :: t2) = []) := by
    rw [hs]; exact List.cons_ne_nil _ _
  have hnu : ¬ (natDigits n ++ (b :: t2) = (r"Unknown date").data) := by
    rw [hs]
    intro hcontra
    have : digChar k = 'U' := (List.cons.injEq _ _ _ _ ▸ hcontra).1
    rw [this] at hkd
    exact absurd hkd (by decide)
  have hlowall : pyLower (natDigits n ++ (b :: t2)) = natDigits n ++ (b :: t2) := by
    unfold pyLower at hlow ⊢
    rw [List.map_append, hlow]
    have := pyLower_natDigits n
    unfold pyLower at this
    rw [this]
  have hjn : containsList (pyLower (natDigits n ++ (b :: t2))) ((r"just now").data)
      = false := by
    rw [hlowall]
    by_contra hcontra
    have hmem : 'j' ∈ natDigits n ++ (b :: t2) :=
      mem_of_containsList (Bool.of_not_eq_false hcontra)
    rcases List.mem_append.mp hmem with hmem | hmem
    · exact natDigits_no_j n 'j' hmem rfl
    · exact hnoj hmem
  have hnow : ¬ (pyLower (natDigits n ++ (b :: t2)) = (r"now").data) := by
    rw [hlowall, hs]
    intro hcontra
    have : digChar k = 'n' := (List.cons.injEq _ _ _ _ ▸ hcontra).1
    rw [this] at hkd
    exact absurd hkd (by decide)
  have hsearch : reSearchAgo (pyLower (natDigits n ++ (b :: t2))) = some (n, u) := by
    rw [hlowall]
    exact reSearchAgo_append n b t2 hb hu
  unfold pyParseDate
  simp only [hne, hnu, hjn, hnow, decide_False, decide_True, Bool.false_or,
    Bool.or_false, decide_eq_true_eq, if_false, Bool.or_self, hsearch]
  simp [hne, hnu, hjn, hnow, hsearch]

theorem buildRecord_unknown (ctx : Ctx) (page : Page) (p : Post)
    (h : pyParseDate ctx.now (extractPostDate p) = none) :
    (buildRecord ctx page p).post_date = (r"Unknown").data ∧
    (buildRecord ctx page p).day_of_week = (r"Unknown").data ∧
    (buildRecord ctx page p).hour_of_day = (r"Unknown").data := by
  simp [buildRecord, h]

theorem extractLoop_head (ctx : Ctx) (page : Page) (p : Post) (ps : List Post)
    (hc : p.crashes = false) (ho : isOriginalPost p = true) :
    (extractLoop ctx page 0 (p :: ps)).head? = some (buildRecord ctx page p) := by
  rw [extractLoop]
  simp only [hc, ho, Bool.not_true, if_false, Bool.false_eq_true, if_neg]
  by_cases hmp : ctx.maxPosts ≤ 0 + 1 <;> simp [hmp]

/-- C3: for every count `N` and word unit, `parse_date` maps the string
`"N <unit> ago"` to the parse-instant time minus `N` of that unit (month as
30 days, year as 365 days); `"just now"` maps to the current time; text
matching no recognized form (e.g. `"garbage"`) yields the sentinel `none`;
and on a `none` parse the assembled record's formatted timestamp, day-of-week
and hour-of-day columns are the string `Unknown` while the record is still
emitted (an original, non-crashing post heads the extraction output
regardless of its date parsing). -/
theorem c3_temporal_normalizer (now : ℤ) :
    (∀ (N : ℕ) (u : TimeUnit),
      pyParseDate now (natDigits N ++ (' ' :: (unitName u ++ (r" ago").data)))
        = some (now - (N : ℤ) * unitSecs u)) ∧
    pyParseDate now ((r"just now").data) = some now ∧
    pyParseDate now ((r"garbage").data) = none ∧
    (∀ (ctx : Ctx) (page : Page) (p : Post),
      pyParseDate ctx.now (extractPostDate p) = none →
        (buildRecord ctx page p).post_date = (r"Unknown").data ∧
        (buildRecord ctx page p).day_of_week = (r"Unknown").data ∧
        (buildRecord ctx page p).hour_of_day = (r"Unknown").data) ∧
    (∀ (ctx : Ctx) (page : Page) (p : Post) (ps : List Post),
      p.crashes = false → isOriginalPost p = true →
        (extractLoop ctx page 0 (p :: ps)).head? = some (buildRecord ctx page p)) := by
  refine ⟨fun N u => ?_, rfl, rfl,
    fun ctx page p h => buildRecord_unknown ctx page p h,
    fun ctx page p ps hc ho => extractLoop_head ctx page p ps hc ho⟩
  cases u <;>
    exact pyParseDate_digits_tail now N _ ' ' _ (by decide) (by decide)
      (by decide) (by decide)

/-- Witness for C3 at concrete inputs. -/
theorem c3_temporal_normalizer_witness :
    pyParseDate 0 (natDigits 12 ++ (' ' :: (unitName TimeUnit.minute ++ (r" ago").data)))
      = some (0 - (12 : ℤ) * unitSecs TimeUnit.minute) ∧
    pyParseDate 0 ((r"just now").data) = some 0 ∧
    pyParseDate 0 ((r"garbage").data) = none ∧
    ((buildRecord (mkCtx 5) (basicPage [c3post]) c3post).post_date = (r"Unknown").data ∧
     (buildRecord (mkCtx 5) (basicPage [c3post]) c3post).day_of_week = (r"Unknown").data ∧
     (buildRecord (mkCtx 5) (basicPage [c3post]) c3post).hour_of_day = (r"Unknown").data) ∧
    (extractLoop (mkCtx 5) (basicPage [c3post]) 0 [c3post]).head?
      = some (buildRecord (mkCtx 5) (basicPage [c3post]) c3post) := by
  obtain ⟨h1, h2, h3, h4, h5⟩ := c3_temporal_normalizer 0
  exact ⟨h1 12 TimeUnit.minute, h2, h3,
    h4 (mkCtx 5) (basicPage [c3post]) c3post (by decide),
    h5 (mkCtx 5) (basicPage [c3post]) c3post [] (by decide) (by decide)⟩

/-! ## C6 — post classifier -/

/-- C6: a container whose leading text carries an activity-indicator phrase
(at its start, or after a newline within the first 50 characters) classifies
as not original; one with no such phrase and a content selector yielding
non-empty trimmed text classifies as original; an ambiguous container with
neither classifies as not original. -/
theorem c6_classifier_cases (p : Post) :
    (hasActivityIndicator p = true → isOriginalPost p = false) ∧
    (hasActivityIndicator p = false → hasContentIndicator p = true →
      isOriginalPost p = true) ∧
    (hasActivityIndicator p = false → hasContentIndicator p = false →
      isOriginalPost p = false) := by
  refine ⟨fun h => ?_, fun h1 h2 => ?_, fun h1 h2 => ?_⟩ <;>
    simp [isOriginalPost, *]

/-- Witness for C6: a `liked a post …` container, an original container and
an ambiguous one. -/
theorem c6_classifier_witness :
    isOriginalPost c6liked = false ∧
    isOriginalPost c6orig = true ∧
    isOriginalPost c6ambiguous = false :=
  ⟨(c6_classifier_cases c6liked).1 (by decide),
   (c6_classifier_cases c6orig).2.1 (by decide) (by decide),
   (c6_classifier_cases c6ambiguous).2.2 (by decide) (by decide)⟩

/-! ## C8 — post locator -/

theorem isEmpty_false_of_ne {α : Type} {l : List α} (h : l ≠ []) :
    l.isEmpty = false := by
  cases l with
  | nil => exact absurd rfl h
  | cons a t => rfl

/-- C8: the locator takes candidates from the first container selector that
matches at all — results of different selectors are never merged — and keeps
at most the first 15 containers. -/
theorem c8_locator (page : Page) :
    (page.sel1 ≠ [] → locatePosts page = page.sel1.take 15) ∧
    (page.sel1 = [] → page.sel2 ≠ [] → locatePosts page = page.sel2.take 15) ∧
    (page.sel1 = [] → page.sel2 = [] → locatePosts page = page.sel3.take 15) ∧
    (locatePosts page).length ≤ 15 := by
  have hlen : ∀ l : List Post, (l.take 15).length ≤ 15 := by
    intro l; simp [List.length_take]
  refine ⟨fun h1 => ?_, fun h1 h2 => ?_, fun h1 h2 => ?_, ?_⟩
  · simp [locatePosts, isEmpty_false_of_ne h1]
  · simp [locatePosts, h1, isEmpty_false_of_ne h2]
  · by_cases h3 : page.sel3 = []
    · simp [locatePosts, h1, h2, h3]
    · simp [locatePosts, h1, h2, isEmpty_false_of_ne h3]
  · unfold locatePosts
    split
    · exact hlen _
    · split
      · exact hlen _
      · split
        · exact hlen _
        · simp

/-- Witness for C8 across the three selector situations. -/
theorem c8_locator_witness :
    locatePosts (basicPage [c8post]) = (basicPage [c8post]).sel1.take 15 ∧
    locatePosts c8pageB = c8pageB.sel2.take 15 ∧
    locatePosts (basicPage []) = (basicPage []).sel3.take 15 ∧
    (locatePosts (basicPage [c8post])).length ≤ 15 :=
  ⟨(c8_locator (basicPage [c8post])).1 (by decide),
   (c8_locator c8pageB).2.1 (by decide) (by decide),
   (c8_locator (basicPage [])).2.2.1 (by decide) (by decide),
   (c8_locator (basicPage [c8post])).2.2.2⟩

/-! ## C10 — the `max_posts` cap -/

theorem extractLoop_eq_take (ctx : Ctx) (page : Page) :
    ∀ (ps : List Post) (count : ℕ), count < ctx.maxPosts →
      extractLoop ctx page count ps
        = (extractAllLoop ctx page ps).take (ctx.maxPosts - count) := by
  intro ps
  induction ps with
  | nil => intro count _; simp [extractLoop, extractAllLoop]
  | cons p pt ih =>
    intro count h
    rw [extractLoop, extractAllLoop]
    by_cases hc : p.crashes
    · simp only [hc, if_true]
      exact ih count h
    · by_cases ho : isOriginalPost p
      · simp only [hc, ho, Bool.not_true, if_false, Bool.false_eq_true]
        by_cases hmp : ctx.maxPosts ≤ count + 1
        · have : ctx.maxPosts - count = 1 := by omega
          simp [this, hmp]
        · have h1 : ctx.maxPosts - count = (ctx.maxPosts - (count + 1)) + 1 := by
            omega
          simp only [hmp, if_false]
          rw [h1, List.take_succ_cons, ih (count + 1) (by omega)]
      · simp only [hc, ho, Bool.not_false, if_false, if_true, Bool.false_eq_true]
        exact ih count h

/-- Counterexample for C10 as stated: with `max_posts = 0` the loop still
emits one record, because the cap is checked only after a record is
appended. -/
theorem c10_zero_cap :
    (mkCtx 0).maxPosts = 0 ∧ (extractPosts (mkCtx 0) c10page).length = 1 := by
  decide

/-- C10 (amended): for every configured `max_posts ≥ 1` — any value the
constructor or the UI can set, the default being 5 — `extract_posts` returns
exactly the first `max_posts` extractable original posts of the located
containers, hence at most `max_posts` records, and original posts beyond the
cap are never emitted. -/
theorem c10_max_posts_cap (ctx : Ctx) (page : Page) (h : 1 ≤ ctx.maxPosts) :
    extractPosts ctx page
      = (extractAllLoop ctx page (locatePosts page)).take ctx.maxPosts ∧
    (extractPosts ctx page).length ≤ ctx.maxPosts := by
  have he := extractLoop_eq_take ctx page (locatePosts page) 0 (by omega)
  constructor
  · simpa [extractPosts] using he
  · rw [extractPosts, he]
    simp [List.length_take]

/-- Witness for C10 at the default `max_posts = 5`. -/
theorem c10_max_posts_cap_witness :
    extractPosts (mkCtx 5) c10page
      = (extractAllLoop (mkCtx 5) c10page (locatePosts c10page)).take
          (mkCtx 5).maxPosts ∧
    (extractPosts (mkCtx 5) c10page).length ≤ (mkCtx 5).maxPosts :=
  c10_max_posts_cap (mkCtx 5) c10page (by decide)

/-! ## C4 — engagement invariant -/

theorem foldl_preserve {α β : Type} (P : β → Prop) (f : β → α → β)
    (h : ∀ b a, P b → P (f b a)) : ∀ (l : List α) (b : β), P b → P (l.foldl f b) := by
  intro l
  induction l with
  | nil => intro b hb; exact hb
  | cons a t ih => intro b hb; exact ih (f b a) (h b a hb)

theorem pyFloatVal_nonneg (s : Str) : 0 ≤ (pyFloatVal s).n := by
  unfold pyFloatVal
  split
  · simp
    positivity
  · simp

theorem jsNumValue_nonneg (s : Str) : 0 ≤ (jsNumValue s).n := by
  unfold jsNumValue
  split
  · simp only [decScale]
    exact mul_nonneg (pyFloatVal_nonneg s) (by norm_num)
  · split
    · simp only [decScale]
      exact mul_nonneg (pyFloatVal_nonneg s) (by norm_num)
    · simp

theorem jsStrat1_nonneg (kws : List Str) (t : Str) : 0 ≤ (jsStrat1 kws t).n := by
  unfold jsStrat1
  split
  · exact jsNumValue_nonneg _
  · simp

theorem strat3Step_nonneg (kws : List Str) (t : Str) (cur : Dec10)
    (h : 0 ≤ cur.n) : 0 ≤ (strat3Step kws t cur).n := by
  unfold strat3Step
  split
  · split
    · exact jsNumValue_nonneg _
    · exact h
  · exact h

theorem engStrat1_nonneg (p : Post) :
    0 ≤ (engStrat1 p).1.n ∧ 0 ≤ (engStrat1 p).2.1.n ∧
      0 ≤ (engStrat1 p).2.2.n := by
  unfold engStrat1
  split
  · exact ⟨jsStrat1_nonneg _ _, jsStrat1_nonneg _ _, jsStrat1_nonneg _ _⟩
  · simp

theorem engStrat3_nonneg (p : Post) :
    0 ≤ (engStrat3 p).1.n ∧ 0 ≤ (engStrat3 p).2.1.n ∧
      0 ≤ (engStrat3 p).2.2.n := by
  unfold engStrat3
  exact foldl_preserve
    (fun acc : Dec10 × Dec10 × Dec10 =>
      0 ≤ acc.1.n ∧ 0 ≤ acc.2.1.n ∧ 0 ≤ acc.2.2.n) _
    (fun b a hb => ⟨strat3Step_nonneg _ _ _ hb.1,
      strat3Step_nonneg _ _ _ hb.2.1, strat3Step_nonneg _ _ _ hb.2.2⟩)
    _ _ (by simp)

theorem extractEngagement_nonneg (p : Post) :
    0 ≤ (extractEngagement p).1.n ∧ 0 ≤ (extractEngagement p).2.1.n ∧
      0 ≤ (extractEngagement p).2.2.n := by
  unfold extractEngagement
  split
  · split
    · exact engStrat3_nonneg p
    · exact ⟨by simp [decOfNat], by simp [decOfNat], by simp [decOfNat]⟩
  · exact engStrat1_nonneg p

theorem decVal_nonneg {x : Dec10} (h : 0 ≤ x.n) : 0 ≤ decVal x := by
  unfold decVal
  have h1 : (0 : ℚ) ≤ (x.n : ℚ) := by exact_mod_cast h
  positivity

theorem decVal_decAdd (x y : Dec10) : decVal (decAdd x y) = decVal x + decVal y := by
  unfold decVal decAdd
  have hgen : ∀ (a : ℤ) (dd : ℕ), dd ≤ max x.d y.d →
      ((a * (10 : ℤ) ^ (max x.d y.d - dd) : ℤ) : ℚ) / (10 : ℚ) ^ (max x.d y.d)
        = (a : ℚ) / (10 : ℚ) ^ dd := by
    intro a dd hdd
    have hp : (10 : ℚ) ^ (max x.d y.d) = (10 : ℚ) ^ (max x.d y.d - dd) * (10 : ℚ) ^ dd := by
      rw [← pow_add]
      congr 1
      omega
    push_cast
    rw [hp, show ((a : ℚ) * (10 : ℚ) ^ (max x.d y.d - dd)) =
      ((10 : ℚ) ^ (max x.d y.d - dd)) * (a : ℚ) from mul_comm _ _,
      mul_div_mul_left _ _ (by positivity)]
  simp only
  push_cast [add_div]
  rw [← hgen x.n x.d (Nat.le_max_left _ _), ← hgen y.n y.d (Nat.le_max_right _ _)]
  push_cast
  ring

theorem mem_extractLoop (ctx : Ctx) (page : Page) :
    ∀ (ps : List Post) (count : ℕ) (rcd : PostRecord),
      rcd ∈ extractLoop ctx page count ps →
        ∃ p ∈ ps, rcd = buildRecord ctx page p := by
  intro ps
  induction ps with
  | nil => intro count rcd h; simp [extractLoop] at h
  | cons p pt ih =>
    intro count rcd h
    rw [extractLoop] at h
    by_cases hc : p.crashes
    · simp only [hc, if_true] at h
      obtain ⟨q, hq, he⟩ := ih count rcd h
      exact ⟨q, List.mem_cons_of_mem _ hq, he⟩
    · by_cases ho : isOriginalPost p
      · simp only [hc, ho, Bool.not_true, Bool.false_eq_true, if_false] at h
        by_cases hmp : ctx.maxPosts ≤ count + 1
        · simp only [hmp, if_true] at h
          rcases List.mem_singleton.mp h with he
          exact ⟨p, List.mem_cons_self _ _, he⟩
        · simp only [hmp, if_false] at h
          rcases List.mem_cons.mp h with he | hmem
          · exact ⟨p, List.mem_cons_self _ _, he⟩
          · obtain ⟨q, hq, he⟩ := ih (count + 1) rcd hmem
            exact ⟨q, List.mem_cons_of_mem _ hq, he⟩
      · simp only [hc, ho, Bool.not_false, Bool.false_eq_true, if_false,
          if_true] at h
        obtain ⟨q, hq, he⟩ := ih count rcd h
        exact ⟨q, List.mem_cons_of_mem _ hq, he⟩

/-- C4 (amended): every record produced by `extract_posts` satisfies
`total_engagement = reactions + comments + reposts` with all four values
non-negative; the counts are integers when produced by the Python
`parse_count` strategy, but the script-level strategies can yield
non-integral values (see the counterexample), so the "integers" part of the
claim does not hold universally. -/
theorem c4_engagement_invariant (ctx : Ctx) (page : Page) (rcd : PostRecord)
    (h : rcd ∈ extractPosts ctx page) :
    decVal rcd.total_engagement
      = decVal rcd.reactions + decVal rcd.comments + decVal rcd.reposts ∧
    0 ≤ decVal rcd.reactions ∧ 0 ≤ decVal rcd.comments ∧
    0 ≤ decVal rcd.reposts ∧ 0 ≤ decVal rcd.total_engagement := by
  obtain ⟨p, _, rfl⟩ := mem_extractLoop ctx page (locatePosts page) 0 rcd h
  obtain ⟨h1, h2, h3⟩ := extractEngagement_nonneg p
  have hr : (buildRecord ctx page p).reactions = (extractEngagement p).1 := by
    simp [buildRecord]
  have hcm : (buildRecord ctx page p).comments = (extractEngagement p).2.1 := by
    simp [buildRecord]
  have hrp : (buildRecord ctx page p).reposts = (extractEngagement p).2.2 := by
    simp [buildRecord]
  have ht : (buildRecord ctx page p).total_engagement
      = decAdd (decAdd (extractEngagement p).1 (extractEngagement p).2.1)
          (extractEngagement p).2.2 := by
    simp [buildRecord]
  rw [hr, hcm, hrp, ht, decVal_decAdd, decVal_decAdd]
  refine ⟨rfl, decVal_nonneg h1, decVal_nonneg h2, decVal_nonneg h3, ?_⟩
  have := decVal_nonneg h1
  have := decVal_nonneg h2
  have := decVal_nonneg h3
  linarith

/-- Counterexample for the "integers" part of C4: an aggregate social-counts
text of `1.2345K reactions` makes the script strategy store
`1.2345 × 1000 = 1234.5` reactions, which is not an integer. -/
theorem c4_fractional_engagement :
    (extractPosts (mkCtx 5) c4page).map PostRecord.reactions
      = [⟨12345000, 4⟩] ∧
    ¬ ∃ z : ℤ, decVal ⟨12345000, 4⟩ = (z : ℚ) := by
  constructor
  · decide
  · rintro ⟨z, hz⟩
    unfold decVal at hz
    rw [div_eq_iff (by positivity : ((10 : ℚ) ^ (4 : ℕ)) ≠ 0)] at hz
    have hz2 : (12345000 : ℤ) = z * 10 ^ 4 := by exact_mod_cast hz
    omega

/-- Witness for C4 at the concrete extracted record. -/
theorem c4_engagement_invariant_witness :
    decVal (buildRecord (mkCtx 5) c4page c4post).total_engagement
      = decVal (buildRecord (mkCtx 5) c4page c4post).reactions
        + decVal (buildRecord (mkCtx 5) c4page c4post).comments
        + decVal (buildRecord (mkCtx 5) c4page c4post).reposts ∧
    0 ≤ decVal (buildRecord (mkCtx 5) c4page c4post).reactions ∧
    0 ≤ decVal (buildRecord (mkCtx 5) c4page c4post).comments ∧
    0 ≤ decVal (buildRecord (mkCtx 5) c4page c4post).reposts ∧
    0 ≤ decVal (buildRecord (mkCtx 5) c4page c4post).total_engagement :=
  c4_engagement_invariant (mkCtx 5) c4page (buildRecord (mkCtx 5) c4page c4post)
    (List.Mem.head _)

/-! ## C7 — hashtags -/

/-- Counterexample for the "no duplicates" part of C7: a post whose text
repeats `#x` yields the hashtag list `[#x, #x]` — `re.findall` keeps every
occurrence — so the `hashtags` column holds `#x, #x` and `hashtag_count` is
2, not the size 1 of the ordered set of distinct hashtags. -/
theorem c7_duplicate_hashtags :
    (extractPosts (mkCtx 5) c7page).map
        (fun rcd => (rcd.hashtags, rcd.hashtag_count))
      = [((r"#x, #x").data, 2)] ∧
    pyFindall ((r"Hi #x and #x").data) = [(r"#x").data, (r"#x").data] ∧
    ¬ (pyFindall ((r"Hi #x and #x").data)).Nodup := by
  refine ⟨by decide, by decide, by decide⟩

/-- C7 (amended): for every produced record, `hashtags` is the
comma-space-joined list of all `#`-token occurrences of the post text in
order of appearance — duplicates retained, not an ordered set — and
`hashtag_count` is that list's length; on the spec's example text
`Hello #AI #Tech` the occurrence list is `[#AI, #Tech]` with count 2 (no
duplicates arise there, so that example does hold). -/
theorem c7_hashtag_fields (ctx : Ctx) (page : Page) (rcd : PostRecord)
    (h : rcd ∈ extractPosts ctx page) :
    rcd.hashtags = joinCS (pyFindall rcd.post_text) ∧
    rcd.hashtag_count = (pyFindall rcd.post_text).length ∧
    pyFindall ((r"Hello #AI #Tech").data) = [(r"#AI").data, (r"#Tech").data] := by
  obtain ⟨p, _, rfl⟩ := mem_extractLoop ctx page (locatePosts page) 0 rcd h
  refine ⟨?_, ?_, by decide⟩ <;> simp [buildRecord]

/-- Witness for C7 at the concrete extracted record. -/
theorem c7_hashtag_fields_witness :
    (buildRecord (mkCtx 5) c7page c7post).hashtags
      = joinCS (pyFindall (buildRecord (mkCtx 5) c7page c7post).post_text) ∧
    (buildRecord (mkCtx 5) c7page c7post).hashtag_count
      = (pyFindall (buildRecord (mkCtx 5) c7page c7post).post_text).length ∧
    pyFindall ((r"Hello #AI #Tech").data) = [(r"#AI").data, (r"#Tech").data] :=
  c7_hashtag_fields (mkCtx 5) c7page (buildRecord (mkCtx 5) c7page c7post)
    (List.Mem.head _)

/-! ## C9 — failure containment -/

/-- C9 (amended): failures are contained at the narrowest scope — a post
whose processing raises is skipped and the remaining posts of the profile
are still processed; a failed profile contributes zero records while the
other profiles' records are unaffected; and the run always completes,
returning as its session dataset exactly the records that were extractable.
(The code does not, however, return a per-profile status list — see the
counterexample theorem.) -/
theorem c9_failure_containment :
    (∀ (ctx : Ctx) (page : Page) (count : ℕ) (p : Post) (ps : List Post),
      p.crashes = true →
        extractLoop ctx page count (p :: ps) = extractLoop ctx page count ps) ∧
    (∀ (ctx : Ctx) (pre post : List ProfileOutcome),
      sessionRecords ctx (pre ++ ProfileOutcome.failed :: post)
        = sessionRecords ctx pre ++ sessionRecords ctx post) ∧
    (∀ (ctx : Ctx) (cum : Option (List PostRecord))
        (profiles : List ProfileOutcome),
      (scrapeMultipleProfiles ctx cum profiles).1 = sessionRecords ctx profiles) := by
  refine ⟨fun ctx page count p ps h => ?_, fun ctx pre post => ?_,
    fun ctx cum profiles => ?_⟩
  · rw [extractLoop]
    simp [h]
  · simp [sessionRecords, scrapeProfileRecords]
  · unfold scrapeMultipleProfiles
    by_cases h : (sessionRecords ctx profiles).isEmpty
    · have : sessionRecords ctx profiles = [] := by
        cases he : sessionRecords ctx profiles with
        | nil => rfl
        | cons a t => rw [he] at h; simp [List.isEmpty] at h
      simp [h, this]
    · cases cum <;> simp [h]

/-- Counterexample for the "per-profile status list" part of C9: a run where
the first profile fails outright and a run where it succeeds with zero posts
return identical values, so the returned pair carries no per-profile status
information. -/
theorem c9_no_status_list :
    scrapeMultipleProfiles (mkCtx 5) none
        [ProfileOutcome.failed, ProfileOutcome.ok c9page]
      = scrapeMultipleProfiles (mkCtx 5) none
          [ProfileOutcome.ok c9emptyPage, ProfileOutcome.ok c9page] ∧
    [ProfileOutcome.failed, ProfileOutcome.ok c9page]
      ≠ [ProfileOutcome.ok c9emptyPage, ProfileOutcome.ok c9page] := by
  refine ⟨by decide, by decide⟩

/-! ## C5 — cumulative merge and deduplication -/

theorem keyContains_iff (seen : List (Str × Str)) (k : Str × Str) :
    seen.contains k = true ↔ k ∈ seen := List.elem_iff

theorem dedupByKey_nodup :
    ∀ (l : List PostRecord) (seen : List (Str × Str)),
      ((dedupByKey l seen).map recKey).Nodup ∧
      ∀ k ∈ (dedupByKey l seen).map recKey, k ∉ seen := by
  intro l
  induction l with
  | nil => intro seen; simp [dedupByKey]
  | cons rcd rs ih =>
    intro seen
    rw [dedupByKey]
    by_cases h : seen.contains (recKey rcd) = true
    · rw [if_pos h]
      exact ih seen
    · rw [if_neg h]
      obtain ⟨h1, h2⟩ := ih (recKey rcd :: seen)
      refine ⟨?_, ?_⟩
      · rw [List.map_cons, List.nodup_cons]
        exact ⟨fun hmem => (h2 _ hmem) (List.mem_cons_self _ _), h1⟩
      · intro k hk
        rw [List.map_cons, List.mem_cons] at hk
        rcases hk with rfl | hk2
        · exact fun hks => h ((keyContains_iff seen _).mpr hks)
        · exact fun hks => (h2 k hk2) (List.mem_cons_of_mem _ hks)

theorem findKey_cons_ne {rcd : PostRecord} {rs : List PostRecord}
    {k : Str × Str} (h : ¬ recKey rcd = k) :
    findKey k (rcd :: rs) = findKey k rs := by
  unfold findKey
  rw [List.find?_cons]
  simp [h]

theorem findKey_dedupByKey :
    ∀ (l : List PostRecord) (seen : List (Str × Str)) (k : Str × Str),
      k ∉ seen → findKey k (dedupByKey l seen) = findKey k l := by
  intro l
  induction l with
  | nil => intro seen k _; simp [dedupByKey]
  | cons rcd rs ih =>
    intro seen k hk
    rw [dedupByKey]
    by_cases h : seen.contains (recKey rcd) = true
    · rw [if_pos h]
      have hne : ¬ recKey rcd = k := fun he =>
        hk (he ▸ (keyContains_iff seen (recKey rcd)).mp h)
      rw [findKey_cons_ne hne, ih seen k hk]
    · rw [if_neg h]
      by_cases he : recKey rcd = k
      · unfold findKey
        rw [List.find?_cons, List.find?_cons]
        simp [he]
      · rw [findKey_cons_ne he, findKey_cons_ne he]
        refine ih (recKey rcd :: seen) k ?_
        intro hmem
        rcases List.mem_cons.mp hmem with h1 | h1
        · exact he h1.symm
        · exact hk h1

theorem findKey_append_of_isSome (k : Str × Str) :
    ∀ (e n : List PostRecord), (findKey k e).isSome = true →
      findKey k (e ++ n) = findKey k e := by
  intro e
  induction e with
  | nil => intro n h; simp [findKey] at h
  | cons rcd rs ih =>
    intro n h
    by_cases he : recKey rcd = k
    · unfold findKey
      rw [List.cons_append, List.find?_cons, List.find?_cons]
      simp [he]
    · rw [List.cons_append, findKey_cons_ne he, findKey_cons_ne he]
      rw [findKey_cons_ne he] at h
      exact ih n h

theorem dedupByKey_append :
    ∀ (l m : List PostRecord) (seen : List (Str × Str)),
      dedupByKey (l ++ m) seen
        = dedupByKey l seen ++ dedupByKey m (seenAfter l seen) := by
  intro l
  induction l with
  | nil => intro m seen; simp [dedupByKey, seenAfter]
  | cons rcd rs ih =>
    intro m seen
    rw [List.cons_append, dedupByKey, dedupByKey, seenAfter]
    by_cases h : seen.contains (recKey rcd) = true
    · rw [if_pos h, if_pos h, if_pos h]
      exact ih m seen
    · rw [if_neg h, if_neg h, if_neg h, List.cons_append,
        ih m (recKey rcd :: seen)]

theorem mem_seenAfter :
    ∀ (l : List PostRecord) (seen : List (Str × Str)) (k : Str × Str),
      k ∈ seenAfter l seen ↔ k ∈ l.map recKey ∨ k ∈ seen := by
  intro l
  induction l with
  | nil => intro seen k; simp [seenAfter]
  | cons rcd rs ih =>
    intro seen k
    rw [seenAfter]
    by_cases h : seen.contains (recKey rcd) = true
    · have hm : recKey rcd ∈ seen := (keyContains_iff _ _).mp h
      rw [if_pos h, ih seen k, List.map_cons, List.mem_cons]
      constructor
      · rintro (h1 | h1)
        · exact Or.inl (Or.inr h1)
        · exact Or.inr h1
      · rintro ((rfl | h1) | h1)
        · exact Or.inr hm
        · exact Or.inl h1
        · exact Or.inr h1
    · rw [if_neg h, ih (recKey rcd :: seen) k, List.map_cons, List.mem_cons,
        List.mem_cons]
      tauto

theorem dedupByKey_nil_of_subset :
    ∀ (m : List PostRecord) (seen : List (Str × Str)),
      (∀ r ∈ m, recKey r ∈ seen) → dedupByKey m seen = [] := by
  intro m
  induction m with
  | nil => intro seen _; rfl
  | cons rcd rs ih =>
    intro seen h
    rw [dedupByKey]
    have hc : seen.contains (recKey rcd) = true :=
      (keyContains_iff seen (recKey rcd)).mpr (h rcd (List.mem_cons_self _ _))
    rw [if_pos hc]
    exact ih seen fun r hr => h r (List.mem_cons_of_mem _ hr)

theorem dedupByKey_of_fresh :
    ∀ (l : List PostRecord) (seen : List (Str × Str)),
      (l.map recKey).Nodup → (∀ k ∈ l.map recKey, k ∉ seen) →
      dedupByKey l seen = l := by
  intro l
  induction l with
  | nil => intro seen _ _; rfl
  | cons rcd rs ih =>
    intro seen hnd hfresh
    rw [dedupByKey]
    have hc : ¬ seen.contains (recKey rcd) = true := fun hcon =>
      hfresh (recKey rcd) (by simp) ((keyContains_iff seen _).mp hcon)
    rw [if_neg hc]
    rw [List.map_cons, List.nodup_cons] at hnd
    refine congrArg (rcd :: ·) (ih (recKey rcd :: seen) hnd.2 ?_)
    intro k hk hmem
    rcases List.mem_cons.mp hmem with h1 | h1
    · exact hnd.1 (h1 ▸ hk)
    · exact hfresh k (List.mem_cons_of_mem _ hk) h1

theorem mem_map_dedupByKey :
    ∀ (l : List PostRecord) (seen : List (Str × Str)) (k : Str × Str),
      k ∈ (dedupByKey l seen).map recKey ↔ k ∈ l.map recKey ∧ k ∉ seen := by
  intro l
  induction l with
  | nil => intro seen k; simp [dedupByKey]
  | cons rcd rs ih =>
    intro seen k
    rw [dedupByKey]
    by_cases h : seen.contains (recKey rcd) = true
    · have hm : recKey rcd ∈ seen := (keyContains_iff _ _).mp h
      rw [if_pos h, ih seen k, List.map_cons, List.mem_cons]
      constructor
      · rintro ⟨h1, h2⟩; exact ⟨Or.inr h1, h2⟩
      · rintro ⟨hor, h2⟩
        rcases hor with rfl | h1
        · exact absurd hm h2
        · exact ⟨h1, h2⟩
    · have hm : recKey rcd ∉ seen := fun hs => h ((keyContains_iff _ _).mpr hs)
      rw [if_neg h]
      simp only [List.map_cons, List.mem_cons, ih (recKey rcd :: seen) k, not_or]
      constructor
      · rintro (rfl | ⟨h1, h2, h3⟩)
        · exact ⟨Or.inl rfl, hm⟩
        · exact ⟨Or.inr h1, h3⟩
      · rintro ⟨hor, h2⟩
        rcases hor with rfl | h1
        · exact Or.inl rfl
        · by_cases hek : k = recKey rcd
          · exact Or.inl hek
          · exact Or.inr ⟨h1, hek, h2⟩

/-- C5: the cumulative merge deduplicates on the (profile name, post text)
key keeping the earliest-written record: no two records of the merged
dataset share a key; a key already present in the existing dataset keeps
exactly its existing first record after the merge; and merging the same
session records a second time against the resulting dataset changes
nothing. -/
theorem c5_cumulative_merge (e n : List PostRecord) :
    ((mergeCumulative e n).map recKey).Nodup ∧
    (∀ k : Str × Str, (findKey k e).isSome = true →
      findKey k (mergeCumulative e n) = findKey k e) ∧
    mergeCumulative (mergeCumulative e n) n = mergeCumulative e n := by
  refine ⟨(dedupByKey_nodup (e ++ n) []).1, fun k hk => ?_, ?_⟩
  · unfold mergeCumulative
    rw [findKey_dedupByKey (e ++ n) [] k (List.not_mem_nil k),
      findKey_append_of_isSome k e n hk]
  · show dedupByKey (dedupByKey (e ++ n) [] ++ n) [] = dedupByKey (e ++ n) []
    rw [dedupByKey_append]
    have h1 : dedupByKey (dedupByKey (e ++ n) []) [] = dedupByKey (e ++ n) [] :=
      dedupByKey_of_fresh _ [] (dedupByKey_nodup (e ++ n) []).1
        (fun k _ => List.not_mem_nil k)
    have h2 : dedupByKey n (seenAfter (dedupByKey (e ++ n) []) []) = [] := by
      refine dedupByKey_nil_of_subset n _ fun r hr => ?_
      rw [mem_seenAfter]
      refine Or.inl ?_
      rw [mem_map_dedupByKey]
      exact ⟨List.mem_map_of_mem recKey (List.mem_append_right e hr),
        List.not_mem_nil _⟩
    rw [h1, h2, List.append_nil]

/-- Witness for C5 on a concrete key collision. -/
theorem c5_cumulative_merge_witness :
    ((mergeCumulative c5e c5n).map recKey).Nodup ∧
    findKey (((r"hello").data, (r"alice").data)) (mergeCumulative c5e c5n)
      = findKey (((r"hello").data, (r"alice").data)) c5e ∧
    mergeCumulative (mergeCumulative c5e c5n) c5n = mergeCumulative c5e c5n :=
  ⟨(c5_cumulative_merge c5e c5n).1,
   (c5_cumulative_merge c5e c5n).2.1 (((r"hello").data, (r"alice").data))
     (by decide),
   (c5_cumulative_merge c5e c5n).2.2⟩

/-- Witness for C9 at concrete inputs. -/
theorem c9_failure_containment_witness :
    extractLoop (mkCtx 5) c9page 0 [c9crashPost, c9post]
      = extractLoop (mkCtx 5) c9page 0 [c9post] ∧
    sessionRecords (mkCtx 5)
        ([ProfileOutcome.ok c9page] ++ ProfileOutcome.failed :: [ProfileOutcome.ok c9page])
      = sessionRecords (mkCtx 5) [ProfileOutcome.ok c9page]
        ++ sessionRecords (mkCtx 5) [ProfileOutcome.ok c9page] ∧
    (scrapeMultipleProfiles (mkCtx 5) none [ProfileOutcome.ok c9page]).1
      = sessionRecords (mkCtx 5) [ProfileOutcome.ok c9page] :=
  ⟨c9_failure_containment.1 (mkCtx 5) c9page 0 c9crashPost [c9post] (by decide),
   c9_failure_containment.2.1 (mkCtx 5) [ProfileOutcome.ok c9page]
     [ProfileOutcome.ok c9page],
   c9_failure_containment.2.2 (mkCtx 5) none [ProfileOutcome.ok c9page]⟩

end LIScraper
